import Mathlib

/-!
Shallow embedding of the PixelVault upload-ingestion and storage-accounting
subsystem.  The definitions below are translated from:

* `src/models/index.js`  — the User / Category / Image schemas, the
  `pre('save')` hook that increments `storageUsed` / `imageCount`, and the
  `pre('remove')` hook (which, per mongoose semantics, is a *document*
  middleware and is NOT triggered by `Model.findByIdAndDelete`);
* `src/routes/upload.js` — the multer configuration (`fileFilter`, `limits`),
  the batch upload handler `POST /images`, and the delete handler
  `DELETE /image/:id`;
* `src/routes/dashboard.js` — the category deletion handler
  `DELETE /categories/:id` and the per-user category counts of
  `GET /categories`.

Strings that undergo character-level processing (the `tags` field) are
modelled as lists of character codes (`List Nat`), matching JavaScript's
view of strings as sequences of code units.  Other strings are opaque
(`String`, only compared for equality).  Database collections are modelled
as in-memory lists; the blob store is a list of stored file names.
-/

/-- `imageSchema.uploadStatus` enum (src/models/index.js:199-203); the schema
default is `processing`. -/
inductive UStatus
  | queued
  | processing
  | completed
  | failed
deriving DecidableEq, Repr

/-- A file as delivered by multer to the route handler: `originalname`,
`mimetype`, `size` and the generated unique `filename`. -/
structure UpFile where
  originalname : String
  mimetype : String
  size : Nat
  filename : String
deriving DecidableEq, Repr

/-- The fields of `userSchema` relevant to storage accounting
(src/models/index.js:27-36). -/
structure UserRec where
  id : Nat
  storageUsed : Int
  maxStorage : Int
deriving DecidableEq, Repr

/-- The fields of `categorySchema` relevant to the claims
(src/models/index.js:70-103): the cached `imageCount` counter. -/
structure CatRec where
  id : Nat
  name : String
  imageCount : Int
deriving DecidableEq, Repr

/-- The fields of `imageSchema` relevant to the claims
(src/models/index.js:106-210). -/
structure ImgRec where
  id : Nat
  fileName : String
  originalName : String
  mimeType : String
  size : Nat
  category : Nat
  tags : List (List Nat)
  userId : Nat
  uploadStatus : UStatus
deriving DecidableEq, Repr

/-- System state: the three document collections plus the blob store
(the set of file names under `public/uploads/images/`) and a fresh-id
counter for new Image records. -/
structure St where
  users : List UserRec
  cats : List CatRec
  imgs : List ImgRec
  disk : List String
  nextId : Nat
deriving DecidableEq, Repr

/-- The multer `fileFilter` predicate (src/routes/upload.js:32-39):
`file.mimetype.startsWith('image/')`. -/
def isImageMime (m : String) : Bool :=
  "image/".data.isPrefixOf m.data

/-- Errors raised by the multer middleware before the route handler runs
(src/routes/upload.js:32-48, 206-224): a disallowed MIME type from
`fileFilter`, `LIMIT_FILE_COUNT` (more than 10 files), or
`LIMIT_FILE_SIZE` (a file over 10MB). -/
inductive MulterErr
  | badType
  | tooMany
  | tooBig
deriving DecidableEq, Repr

/-- The checks multer applies while receiving the request body.  When any of
them fails multer aborts the request with an error and removes the files it
has already written for this request (multer's error path calls the storage
engine's remove on every already-accepted file), so the observable effect of
a multer failure is an error with the blob store unchanged. -/
def multerCheck (files : List UpFile) : Option MulterErr :=
  if files.any (fun f => !(isImageMime f.mimetype)) then some .badType
  else if decide (files.length > 10) then some .tooMany
  else if files.any (fun f => decide (f.size > 10 * 1024 * 1024)) then some .tooBig
  else none

/-- JavaScript whitespace test used by `trim` for the code points that can
occur around comma-separated tags: space, tab, line feed, carriage return. -/
def isWsCode (n : Nat) : Bool :=
  n == 32 || n == 9 || n == 10 || n == 13

/-- JavaScript `String.prototype.trim` on a list of character codes. -/
def trimCodes (l : List Nat) : List Nat :=
  ((l.dropWhile isWsCode).reverse.dropWhile isWsCode).reverse

/-- ASCII lowercasing of one code unit, as `toLowerCase` acts on `A`-`Z`. -/
def lowerCode (n : Nat) : Nat :=
  if 65 ≤ n ∧ n ≤ 90 then n + 32 else n

/-- Lowercasing of a whole tag (the `lowercase: true` schema option on
`imageSchema.tags`, src/models/index.js:152-157). -/
def lowerCodes (l : List Nat) : List Nat :=
  l.map lowerCode

/-- JavaScript `s.split(',')` on character codes (44 is the comma). -/
def splitComma : List Nat → List (List Nat)
  | [] => [[]]
  | c :: rest =>
    let r := splitComma rest
    if c == 44 then [] :: r
    else
      match r with
      | s :: ss => (c :: s) :: ss
      | [] => [[c]]

/-- The route's tag processing (src/routes/upload.js:71):
`tags ? tags.split(',').map(tag => tag.trim()).filter(tag => tag) : []`.
An absent field and the empty string are both falsy in JavaScript. -/
def routeTagArray (tags : Option (List Nat)) : List (List Nat) :=
  match tags with
  | none => []
  | some s =>
    if s.isEmpty then []
    else ((splitComma s).map trimCodes).filter (fun t => !t.isEmpty)

/-- The schema setters on each stored tag: `trim: true, lowercase: true`
(src/models/index.js:152-157). -/
def schemaTag (t : List Nat) : List Nat :=
  trimCodes (lowerCodes t)

/-- End-to-end tag normalization: route processing followed by the schema
setters applied to every array element on save. -/
def processTags (tags : Option (List Nat)) : List (List Nat) :=
  (routeTagArray tags).map schemaTag

/-- `User.findByIdAndUpdate(uid, { $inc: { storageUsed: d } })`: an atomic
increment applied to the matching user document, with no clamping (update
operations do not run the schema `min: 0` validator). -/
def userInc (st : St) (uid : Nat) (d : Int) : St :=
  { st with users := st.users.map fun u =>
      if u.id == uid then { u with storageUsed := u.storageUsed + d } else u }

/-- `Category.findByIdAndUpdate(cid, { $inc: { imageCount: d } })`. -/
def catInc (st : St) (cid : Nat) (d : Int) : St :=
  { st with cats := st.cats.map fun c =>
      if c.id == cid then { c with imageCount := c.imageCount + d } else c }

/-- The `imageSchema.pre('save')` hook for a new document
(src/models/index.js:233-252): increment the owner's `storageUsed` by the
image size, then increment the category's `imageCount` by one.  It runs after
validation and before the record is written. -/
def applySaveHook (st : St) (uid cid : Nat) (size : Nat) : St :=
  catInc (userInc st uid (size : Int)) cid 1

/-- Appending a freshly persisted Image record to the collection. -/
def addImg (st : St) (img : ImgRec) : St :=
  { st with imgs := st.imgs ++ [img], nextId := st.nextId + 1 }

/-- `fs.unlink` of a stored blob; removing an absent name is a caught,
logged error and leaves the store unchanged, which `List.erase` models. -/
def unlink (st : St) (name : String) : St :=
  { st with disk := st.disk.erase name }

/-- Outcome of one `image.save()` call: success, a failure during
validation (before the `pre('save')` hook has run), or a failure at the
database write (after the hook's counter increments have been applied). -/
inductive SaveOutcome
  | ok
  | failValidate
  | failWrite
deriving DecidableEq, Repr

/-- The Image record built by the upload loop (src/routes/upload.js:79-90);
`uploadStatus` takes its schema default `processing` and is never set by the
route. -/
def mkImgRec (st : St) (uid cid : Nat) (tagArr : List (List Nat)) (f : UpFile) : ImgRec :=
  { id := st.nextId
    fileName := f.filename
    originalName := f.originalname
    mimeType := f.mimetype
    size := f.size
    category := cid
    tags := tagArr
    userId := uid
    uploadStatus := .processing }

/-- The per-file loop of `POST /images` (src/routes/upload.js:77-109):
for each file build a record and `save()` it; on success push it to
`uploadedImages`; on failure push an error message and unlink the
just-written blob, then continue with the next file.  `persist` is the
oracle deciding how each save attempt ends (claim C5's simulated failure). -/
def processFiles (uid cid : Nat) (tagArr : List (List Nat)) (persist : Nat → SaveOutcome) :
    St → List UpFile → Nat → St × List ImgRec × List String
  | st, [], _ => (st, [], [])
  | st, f :: rest, i =>
    match persist i with
    | .ok =>
      let st1 := addImg (applySaveHook st uid cid f.size) (mkImgRec st uid cid tagArr f)
      let r := processFiles uid cid tagArr persist st1 rest (i + 1)
      (r.1, mkImgRec st uid cid tagArr f :: r.2.1, r.2.2)
    | .failValidate =>
      let st1 := unlink st f.filename
      let r := processFiles uid cid tagArr persist st1 rest (i + 1)
      (r.1, r.2.1, ("Failed to save " ++ f.originalname) :: r.2.2)
    | .failWrite =>
      let st1 := unlink (applySaveHook st uid cid f.size) f.filename
      let r := processFiles uid cid tagArr persist st1 rest (i + 1)
      (r.1, r.2.1, ("Failed to save " ++ f.originalname) :: r.2.2)

/-- Handler-level batch errors of `POST /images`
(src/routes/upload.js:56-68, 111-116). -/
inductive UpErr
  | noFiles
  | categoryRequired
  | invalidCategory
  | noneUploaded (details : List String)
deriving DecidableEq, Repr

/-- Overall outcome of `POST /images`. -/
inductive UpResult
  | multerError (e : MulterErr)
  | err (e : UpErr)
  | okResult (images : List ImgRec) (errors : List String)
deriving DecidableEq, Repr

/-- True when the request answered with the success JSON. -/
def UpResult.isOk : UpResult → Bool
  | .okResult _ _ => true
  | _ => false

/-- Number of images in the success response (`uploadedImages.length`). -/
def UpResult.completed : UpResult → Nat
  | .okResult l _ => l.length
  | _ => 0

/-- Number of per-file failure messages collected by the loop. -/
def UpResult.failures : UpResult → Nat
  | .okResult _ e => e.length
  | .err (.noneUploaded e) => e.length
  | _ => 0

/-- `POST /images` end to end (src/routes/upload.js:51-141): the multer
middleware filters and writes the incoming files to disk, then the handler
validates the batch (files present, category supplied and resolvable) and
runs the per-file loop.  Note that the handler's validation failures return
after multer has already written the files, and that no quota check of any
kind is performed. -/
def ingest (st : St) (uid : Nat) (category : Option Nat) (tags : Option (List Nat))
    (files : List UpFile) (persist : Nat → SaveOutcome) : St × UpResult :=
  match multerCheck files with
  | some e => (st, .multerError e)
  | none =>
    let st1 : St := { st with disk := st.disk ++ files.map (·.filename) }
    if files.isEmpty then (st1, .err .noFiles)
    else
      match category with
      | none => (st1, .err .categoryRequired)
      | some cid =>
        match st1.cats.find? (fun c => c.id == cid) with
        | none => (st1, .err .invalidCategory)
        | some _ =>
          let r := processFiles uid cid (processTags tags) persist st1 files 0
          if r.2.1.isEmpty then (r.1, .err (.noneUploaded r.2.2))
          else (r.1, .okResult r.2.1 r.2.2)

/-- Outcome of `DELETE /image/:id`. -/
inductive DelResult
  | ok
  | notFound
deriving DecidableEq, Repr

/-- `DELETE /image/:id` (src/routes/upload.js:144-178): find the image by id
and owner (missing or foreign-owned both answer 404); unlink the blob
best-effort (`fsOk` false models an fs error, which is logged and ignored);
then `Image.findByIdAndDelete(id)`.  `findByIdAndDelete` is a query
operation, so the `imageSchema.pre('remove')` document middleware does not
run: no counter is touched. -/
def deleteImage (st : St) (uid iid : Nat) (fsOk : Bool) : St × DelResult :=
  match st.imgs.find? (fun i => i.id == iid && i.userId == uid) with
  | none => (st, .notFound)
  | some img =>
    let st1 := if fsOk then unlink st img.fileName else st
    let st2 := { st1 with imgs := st1.imgs.filter (fun i => !(i.id == iid)) }
    (st2, .ok)

/-- Outcome of `DELETE /categories/:id`. -/
inductive CatDelResult
  | hasImages (n : Nat)
  | notFound
  | ok
deriving DecidableEq, Repr

/-- `DELETE /categories/:id` (src/routes/dashboard.js:149-174): count the
Image records referencing the category with a fresh
`Image.countDocuments({ category: id })` — across all users, ignoring the
cached `imageCount` field — reject when positive, otherwise
`Category.findByIdAndDelete(id)`. -/
def deleteCategory (st : St) (cid : Nat) : St × CatDelResult :=
  let n := (st.imgs.filter (fun i => i.category == cid)).length
  if decide (n > 0) then (st, .hasImages n)
  else
    match st.cats.find? (fun c => c.id == cid) with
    | none => (st, .notFound)
    | some _ =>
      ({ st with cats := st.cats.filter (fun c => !(c.id == cid)) }, .ok)

/-- The per-category count shown by `GET /categories`
(src/routes/dashboard.js:51-57):
`Image.countDocuments({ category: category._id, userId: req.session.userId })`,
restricted to the requesting user. -/
def dashCategoryCount (st : St) (uid cid : Nat) : Nat :=
  (st.imgs.filter (fun i => i.category == cid && i.userId == uid)).length

/-- The `storageUsed` of the user document with the given id. -/
def userStorage (st : St) (uid : Nat) : Option Int :=
  (st.users.find? (fun u => u.id == uid)).map (·.storageUsed)

/-- The cached `imageCount` of the category document with the given id. -/
def cachedCatCount (st : St) (cid : Nat) : Option Int :=
  (st.cats.find? (fun c => c.id == cid)).map (·.imageCount)

/-- Sum of `size` over the user's Image records, the quantity the spec's
invariant compares `storageUsed` against. -/
def sumSizes (st : St) (uid : Nat) : Nat :=
  ((st.imgs.filter (fun i => i.userId == uid)).map (·.size)).sum

/-- Overwrite the cached `imageCount` of one category, used to state that
the deletion guard is independent of the cached counter. -/
def catSetCount (st : St) (cid : Nat) (j : Int) : St :=
  { st with cats := st.cats.map fun c =>
      if c.id == cid then { c with imageCount := j } else c }

/-! ## Helper lemmas -/

/-- `userInc` adds the delta to the storage of the targeted user. -/
theorem userStorage_userInc (st : St) (uid : Nat) (d : Int) :
    userStorage (userInc st uid d) uid = (userStorage st uid).map (· + d) := by
  unfold userStorage userInc
  rw [List.find?_map]
  have hp : ((fun u : UserRec => u.id == uid) ∘ fun u =>
      if u.id == uid then { u with storageUsed := u.storageUsed + d } else u) =
      fun u : UserRec => u.id == uid := by
    funext u
    by_cases h : (u.id == uid) = true
    · rw [Function.comp_apply, if_pos h]
    · rw [Function.comp_apply, if_neg h]
  rw [hp]
  cases hf : st.users.find? (fun u => u.id == uid) with
  | none => rfl
  | some u =>
    have hu := List.find?_some hf
    simp only [Option.map]
    rw [if_pos hu]

/-- `catInc` adds the delta to the cached count of the targeted category. -/
theorem cachedCatCount_catInc (st : St) (cid : Nat) (d : Int) :
    cachedCatCount (catInc st cid d) cid = (cachedCatCount st cid).map (· + d) := by
  unfold cachedCatCount catInc
  rw [List.find?_map]
  have hp : ((fun c : CatRec => c.id == cid) ∘ fun c =>
      if c.id == cid then { c with imageCount := c.imageCount + d } else c) =
      fun c : CatRec => c.id == cid := by
    funext c
    by_cases h : (c.id == cid) = true
    · rw [Function.comp_apply, if_pos h]
    · rw [Function.comp_apply, if_neg h]
  rw [hp]
  cases hf : st.cats.find? (fun c => c.id == cid) with
  | none => rfl
  | some c =>
    have hc := List.find?_some hf
    simp only [Option.map]
    rw [if_pos hc]

theorem userStorage_catInc (st : St) (cid : Nat) (d : Int) (uid : Nat) :
    userStorage (catInc st cid d) uid = userStorage st uid := rfl

theorem userStorage_addImg (st : St) (img : ImgRec) (uid : Nat) :
    userStorage (addImg st img) uid = userStorage st uid := rfl

theorem userStorage_unlink (st : St) (name : String) (uid : Nat) :
    userStorage (unlink st name) uid = userStorage st uid := rfl

theorem userStorage_applySaveHook (st : St) (uid cid : Nat) (size : Nat) :
    userStorage (applySaveHook st uid cid size) uid
      = (userStorage st uid).map (· + (size : Int)) := by
  unfold applySaveHook
  rw [userStorage_catInc, userStorage_userInc]

/-! ## C2 — deleting an image never updates the counters.
The route deletes through `Image.findByIdAndDelete`, a query operation, so
the `imageSchema.pre('remove')` document middleware never runs. -/

/-- C2: for every state and every delete request, `DELETE /image/:id` leaves
every user's `storageUsed` and every category's `imageCount` exactly as they
were — the decrements the claim describes never happen, because
`findByIdAndDelete` does not trigger the `pre('remove')` hook. -/
theorem c2_delete_leaves_counters_unchanged (st : St) (uid iid : Nat) (fsOk : Bool) :
    (deleteImage st uid iid fsOk).1.users = st.users ∧
    (deleteImage st uid iid fsOk).1.cats = st.cats := by
  rcases h : st.imgs.find? (fun i => i.id == iid && i.userId == uid) with _ | img <;>
    simp only [deleteImage, h] <;> cases fsOk <;> simp [unlink]

/-! ## C3 — the storage invariant is broken by deletion. -/

/-- Initial state for the C3 scenario: one user (id 1, nothing stored yet)
and one empty category (id 2). -/
def stC3 : St :=
  { users := [{ id := 1, storageUsed := 0, maxStorage := 1000000 }]
    cats := [{ id := 2, name := "pics", imageCount := 0 }]
    imgs := []
    disk := []
    nextId := 100 }

/-- The single 100-byte file of the C3 scenario. -/
def fC3 : UpFile :=
  { originalname := "a.png", mimetype := "image/png", size := 100
    filename := "image-1-a.png" }

/-- State and result after uploading the file. -/
def stepC3a : St × UpResult := ingest stC3 1 (some 2) none [fC3] (fun _ => .ok)

/-- State and result after then deleting the uploaded image (it got id 100). -/
def stepC3b : St × DelResult := deleteImage stepC3a.1 1 100 true

/-- C3: after the upload the invariant `storageUsed = sum of sizes` holds
(both are 100), but after the subsequent delete the image is gone
(`sumSizes = 0`) while `storageUsed` is still 100 — the invariant the claim
states is violated by the code. -/
theorem c3_storage_invariant_broken_by_delete :
    stepC3a.2.isOk = true ∧
    userStorage stepC3a.1 1 = some 100 ∧ sumSizes stepC3a.1 1 = 100 ∧
    stepC3b.2 = .ok ∧
    sumSizes stepC3b.1 1 = 0 ∧ userStorage stepC3b.1 1 = some 100 ∧
    userStorage stepC3b.1 1 ≠ some ((sumSizes stepC3b.1 1 : Nat) : Int) := by
  decide

/-! ## C6 — double delete answers ok then NotFound, but no counter moves. -/

/-- Initial state for the C6 scenario: user 1 owns one 100-byte image
(id 7) in category 2; the counters reflect it. -/
def stC6 : St :=
  { users := [{ id := 1, storageUsed := 100, maxStorage := 1000000 }]
    cats := [{ id := 2, name := "pics", imageCount := 1 }]
    imgs := [{ id := 7, fileName := "f7.png", originalName := "o7.png"
               mimeType := "image/png", size := 100, category := 2
               tags := [], userId := 1, uploadStatus := .processing }]
    disk := ["f7.png"]
    nextId := 50 }

/-- First delete of image 7. -/
def delC6a : St × DelResult := deleteImage stC6 1 7 true

/-- Second delete of the same id. -/
def delC6b : St × DelResult := deleteImage delC6a.1 1 7 true

/-- C6: the first delete succeeds and the second answers NotFound, as the
claim says; but the owner's `storageUsed` and the category's `imageCount`
are decremented zero times, not exactly once — both still hold their
pre-delete values. -/
theorem c6_double_delete_no_decrement :
    delC6a.2 = .ok ∧ delC6b.2 = .notFound ∧
    userStorage delC6b.1 1 = some 100 ∧ cachedCatCount delC6b.1 2 = some 1 ∧
    userStorage delC6b.1 1 ≠ some 0 ∧ cachedCatCount delC6b.1 2 ≠ some 0 := by
  decide

/-! ## C1 — no quota check exists in the upload path.
The handler never reads `maxStorage` or `storageUsed`; a validated batch is
always accepted and the `pre('save')` hook increments `storageUsed`
unconditionally. -/

/-- The C1 scenario's initial state: user 1 with `storageUsed = 900` and
`maxStorage = 1000`, one category (id 2). -/
def stC1 : St :=
  { users := [{ id := 1, storageUsed := 900, maxStorage := 1000 }]
    cats := [{ id := 2, name := "pics", imageCount := 0 }]
    imgs := []
    disk := []
    nextId := 10 }

/-- The 150-byte file of the C1 scenario. -/
def fC1 : UpFile :=
  { originalname := "big.png", mimetype := "image/png", size := 150
    filename := "image-1-big.png" }

/-- Upload of the 150-byte file by the 900/1000 user. -/
def runC1 : St × UpResult := ingest stC1 1 (some 2) none [fC1] (fun _ => .ok)

/-- C1 counterexample: the 150-byte upload that the claim says is rejected
with `QuotaExceeded` (storage left at 900) is in fact accepted, and
`storageUsed` becomes 1050, exceeding `maxStorage`. -/
theorem c1_cex_quota_not_enforced :
    runC1.2.isOk = true ∧
    userStorage runC1.1 1 = some 1050 ∧
    userStorage runC1.1 1 ≠ some 900 := by
  decide

/-- C1 (amended): for every state and every single-file batch that passes
the multer filters and names an existing category, ingest succeeds and adds
the file's size to the owner's `storageUsed` — no hypothesis about
`maxStorage` is needed, because the code never consults the quota. -/
theorem c1_upload_ignores_quota (st : St) (uid cid : Nat) (tags : Option (List Nat))
    (persist : Nat → SaveOutcome) (f : UpFile)
    (hmime : isImageMime f.mimetype = true)
    (hsize : f.size ≤ 10 * 1024 * 1024)
    (hcat : (st.cats.find? (fun c => c.id == cid)).isSome = true)
    (hp : persist 0 = SaveOutcome.ok) :
    (ingest st uid (some cid) tags [f] persist).2.isOk = true ∧
    (ingest st uid (some cid) tags [f] persist).2.completed = 1 ∧
    userStorage (ingest st uid (some cid) tags [f] persist).1 uid
      = (userStorage st uid).map (· + (f.size : Int)) := by
  have h1 : (decide (f.size > 10 * 1024 * 1024)) = false :=
    decide_eq_false (Nat.not_lt.mpr hsize)
  have hmc : multerCheck [f] = none := by
    unfold multerCheck
    simp [hmime, h1]
  obtain ⟨c, hc⟩ := Option.isSome_iff_exists.mp hcat
  have hc' : ({ st with disk := st.disk ++ [f].map (·.filename) } : St).cats.find?
      (fun c => c.id == cid) = some c := hc
  simp only [ingest, hmc, List.isEmpty_cons, hc', processFiles, hp,
    Bool.false_eq_true, ite_false]
  refine ⟨rfl, rfl, ?_⟩
  rw [userStorage_addImg, userStorage_applySaveHook]
  rfl

/-- C1 witness: instantiating the amended theorem at the concrete 900/1000
scenario: the upload is accepted and `storageUsed` becomes 1050. -/
theorem c1_upload_ignores_quota_w :
    (ingest stC1 1 (some 2) none [fC1] (fun _ => SaveOutcome.ok)).2.isOk = true ∧
    userStorage (ingest stC1 1 (some 2) none [fC1] (fun _ => SaveOutcome.ok)).1 1
      = some 1050 := by
  have h := c1_upload_ignores_quota stC1 1 2 none (fun _ => SaveOutcome.ok) fC1
    (by decide) (by decide) (by decide) rfl
  refine ⟨h.1, ?_⟩
  rw [h.2.2]
  decide

/-! ## C4 — what validation failures leave behind.
Multer failures (disallowed MIME type) abort with the written files removed,
and an empty batch writes nothing; but the handler's category checks run
*after* multer has stored the files, and their early returns do not delete
them. -/

/-- C4 (amended): validation failures never create records or touch
counters, and a multer-level rejection (disallowed MIME type) or an empty
batch leaves the state completely unchanged; however a missing or invalid
category is rejected only after the upload middleware has written the
batch's files, whose blobs remain on disk. -/
theorem c4_validation_rejects_without_records (st : St) (uid : Nat) (cat : Option Nat)
    (tags : Option (List Nat)) (files : List UpFile) (persist : Nat → SaveOutcome)
    (cid : Nat) :
    ((∃ f ∈ files, isImageMime f.mimetype = false) →
      ingest st uid cat tags files persist = (st, .multerError .badType)) ∧
    (files = [] →
      ingest st uid cat tags files persist = (st, .err .noFiles)) ∧
    (multerCheck files = none → files ≠ [] → cat = none →
      ingest st uid cat tags files persist =
        ({ st with disk := st.disk ++ files.map (·.filename) }, .err .categoryRequired)) ∧
    (multerCheck files = none → files ≠ [] → cat = some cid →
      st.cats.find? (fun c => c.id == cid) = none →
      ingest st uid cat tags files persist =
        ({ st with disk := st.disk ++ files.map (·.filename) }, .err .invalidCategory)) := by
  refine ⟨?_, ?_, ?_, ?_⟩
  · rintro ⟨f, hf, hbad⟩
    have hmc : multerCheck files = some .badType := by
      unfold multerCheck
      rw [if_pos]
      exact List.any_eq_true.mpr ⟨f, hf, by rw [hbad]; rfl⟩
    simp [ingest, hmc]
  · rintro rfl
    simp [ingest, multerCheck]
  · intro hmc hne hcat
    subst hcat
    cases files with
    | nil => exact absurd rfl hne
    | cons f fs =>
      simp only [ingest, hmc, List.isEmpty_cons, Bool.false_eq_true, ite_false]
  · intro hmc hne hcat hfind
    subst hcat
    cases files with
    | nil => exact absurd rfl hne
    | cons f fs =>
      have hfind' : ({ st with disk := st.disk ++ (f :: fs).map (·.filename) } : St).cats.find?
          (fun c => c.id == cid) = none := hfind
      simp only [ingest, hmc, List.isEmpty_cons, Bool.false_eq_true, ite_false, hfind']

/-- Initial state for the C4 counterexample: one user, one category (id 2),
empty disk. -/
def stC4 : St :=
  { users := [{ id := 1, storageUsed := 0, maxStorage := 1000 }]
    cats := [{ id := 2, name := "pics", imageCount := 0 }]
    imgs := []
    disk := []
    nextId := 1 }

/-- A valid image file whose blob multer stores as `f4.png`. -/
def fC4 : UpFile :=
  { originalname := "x.png", mimetype := "image/png", size := 10
    filename := "f4.png" }

/-- C4 counterexample: uploading to the non-existent category 5 is rejected
with `Invalid category`, and no record or counter changes — but the blob
`f4.png`, already written by multer, is left on disk, contradicting the
claim's "no file is left on disk". -/
theorem c4_cex_invalid_category_leaves_blob :
    (ingest stC4 1 (some 5) none [fC4] (fun _ => .ok)).2 = .err .invalidCategory ∧
    "f4.png" ∈ (ingest stC4 1 (some 5) none [fC4] (fun _ => .ok)).1.disk ∧
    (ingest stC4 1 (some 5) none [fC4] (fun _ => .ok)).1.imgs = stC4.imgs ∧
    userStorage (ingest stC4 1 (some 5) none [fC4] (fun _ => .ok)).1 1
      = userStorage stC4 1 := by
  decide

/-- C4 witness: the amended theorem applied to the concrete invalid-category
upload. -/
theorem c4_validation_rejects_without_records_w :
    ingest stC4 1 (some 5) none [fC4] (fun _ => SaveOutcome.ok)
      = ({ stC4 with disk := stC4.disk ++ [fC4].map (·.filename) },
          .err .invalidCategory) := by
  exact (c4_validation_rejects_without_records stC4 1 (some 5) none [fC4]
    (fun _ => SaveOutcome.ok) 5).2.2.2 (by decide) (by decide) rfl (by decide)

/-! ## C5 — one file's persistence failure does not abort its siblings. -/

/-- Erasing the middle element of a freshly appended triple removes it from
the store when the neighbouring names differ from it. -/
theorem erase_middle_not_mem {a b c : String} {l : List String}
    (hd : a ∉ l) (h1 : a ≠ b) (h3 : a ≠ c) :
    a ∉ (l ++ [b, a, c]).erase a := by
  rw [List.erase_append_right _ hd]
  intro hmem
  rcases List.mem_append.mp hmem with h | h
  · exact hd h
  · have he : ([b, a, c] : List String).erase a = [b, c] := by
      rw [List.erase_cons_tail (by simpa using Ne.symm h1), List.erase_cons_head]
    rw [he] at h
    rcases List.mem_cons.mp h with h | h
    · exact h1 h
    · exact h3 (List.mem_singleton.mp h)

/-- C5: in a three-file batch that passes validation, if the middle file's
record persistence fails (at either failure stage) while its siblings
succeed, the request still answers success with 2 uploaded images and 1
failure message, and the middle file's just-written blob is no longer on
disk. -/
theorem c5_per_file_failure (st : St) (uid cid : Nat) (tags : Option (List Nat))
    (persist : Nat → SaveOutcome) (f1 f2 f3 : UpFile)
    (hm1 : isImageMime f1.mimetype = true)
    (hm2 : isImageMime f2.mimetype = true)
    (hm3 : isImageMime f3.mimetype = true)
    (hs1 : f1.size ≤ 10 * 1024 * 1024)
    (hs2 : f2.size ≤ 10 * 1024 * 1024)
    (hs3 : f3.size ≤ 10 * 1024 * 1024)
    (hcat : (st.cats.find? (fun c => c.id == cid)).isSome = true)
    (hp0 : persist 0 = SaveOutcome.ok)
    (hp2 : persist 2 = SaveOutcome.ok)
    (hp1 : persist 1 = SaveOutcome.failValidate ∨ persist 1 = SaveOutcome.failWrite)
    (hd : f2.filename ∉ st.disk)
    (h21 : f2.filename ≠ f1.filename)
    (h23 : f2.filename ≠ f3.filename) :
    (ingest st uid (some cid) tags [f1, f2, f3] persist).2.isOk = true ∧
    (ingest st uid (some cid) tags [f1, f2, f3] persist).2.completed = 2 ∧
    (ingest st uid (some cid) tags [f1, f2, f3] persist).2.failures = 1 ∧
    f2.filename ∉ (ingest st uid (some cid) tags [f1, f2, f3] persist).1.disk := by
  have e1 : (decide (f1.size > 10 * 1024 * 1024)) = false :=
    decide_eq_false (Nat.not_lt.mpr hs1)
  have e2 : (decide (f2.size > 10 * 1024 * 1024)) = false :=
    decide_eq_false (Nat.not_lt.mpr hs2)
  have e3 : (decide (f3.size > 10 * 1024 * 1024)) = false :=
    decide_eq_false (Nat.not_lt.mpr hs3)
  have hmc : multerCheck [f1, f2, f3] = none := by
    unfold multerCheck
    simp [hm1, hm2, hm3, e1, e2, e3]
  obtain ⟨c, hc⟩ := Option.isSome_iff_exists.mp hcat
  have hc' : ({ st with disk := st.disk ++ [f1, f2, f3].map (·.filename) } : St).cats.find?
      (fun c => c.id == cid) = some c := hc
  have hdisk : f2.filename ∉
      ((st.disk ++ [f1.filename, f2.filename, f3.filename]).erase f2.filename) :=
    erase_middle_not_mem hd h21 h23
  rcases hp1 with h | h <;>
    simp only [ingest, hmc, List.isEmpty_cons, Bool.false_eq_true, ite_false, hc',
      processFiles, hp0, h, hp2] <;>
    exact ⟨rfl, rfl, rfl, hdisk⟩

/-- Save-outcome oracle for the C5 scenario: only the middle file (index 1)
fails. -/
def persistC5 : Nat → SaveOutcome := fun i => if i == 1 then .failValidate else .ok

/-- State for the C5 scenario. -/
def stC5 : St :=
  { users := [{ id := 1, storageUsed := 0, maxStorage := 1000000 }]
    cats := [{ id := 2, name := "pics", imageCount := 0 }]
    imgs := []
    disk := []
    nextId := 1 }

/-- First file of the C5 batch. -/
def f1C5 : UpFile :=
  { originalname := "a.png", mimetype := "image/png", size := 10, filename := "n1.png" }

/-- Second (failing) file of the C5 batch. -/
def f2C5 : UpFile :=
  { originalname := "b.png", mimetype := "image/png", size := 20, filename := "n2.png" }

/-- Third file of the C5 batch. -/
def f3C5 : UpFile :=
  { originalname := "c.png", mimetype := "image/png", size := 30, filename := "n3.png" }

/-- C5 witness: the theorem applied to a concrete 3-file batch whose middle
file fails: 2 completed, 1 failure, no blob left for file 2. -/
theorem c5_per_file_failure_w :
    (ingest stC5 1 (some 2) none [f1C5, f2C5, f3C5] persistC5).2.completed = 2 ∧
    (ingest stC5 1 (some 2) none [f1C5, f2C5, f3C5] persistC5).2.failures = 1 ∧
    f2C5.filename ∉ (ingest stC5 1 (some 2) none [f1C5, f2C5, f3C5] persistC5).1.disk := by
  have h := c5_per_file_failure stC5 1 2 none persistC5 f1C5 f2C5 f3C5
    (by decide) (by decide) (by decide) (by decide) (by decide) (by decide)
    (by decide) rfl rfl (Or.inl rfl) (by decide) (by decide) (by decide)
  exact ⟨h.2.1, h.2.2.1, h.2.2.2⟩

/-! ## C7 — `uploadStatus` never leaves `processing`. -/

theorem imgs_addImg (st : St) (img : ImgRec) :
    (addImg st img).imgs = st.imgs ++ [img] := rfl

theorem imgs_applySaveHook (st : St) (uid cid : Nat) (size : Nat) :
    (applySaveHook st uid cid size).imgs = st.imgs := rfl

theorem imgs_unlink (st : St) (name : String) :
    (unlink st name).imgs = st.imgs := rfl

/-- Every image record present after the upload loop either predates the
loop or is a fresh record carrying `uploadStatus = processing` and exactly
the normalized tag array. -/
theorem processFiles_imgs_spec (uid cid : Nat) (tagArr : List (List Nat))
    (persist : Nat → SaveOutcome) :
    ∀ (files : List UpFile) (st : St) (i : Nat),
      ∀ img ∈ (processFiles uid cid tagArr persist st files i).1.imgs,
        img ∈ st.imgs ∨ (img.uploadStatus = .processing ∧ img.tags = tagArr) := by
  intro files
  induction files with
  | nil =>
    intro st i img h
    exact Or.inl h
  | cons f rest ih =>
    intro st i img h
    cases hp : persist i with
    | ok =>
      simp only [processFiles, hp] at h
      rcases ih _ (i + 1) img h with h' | h'
      · rw [imgs_addImg, imgs_applySaveHook] at h'
        rcases List.mem_append.mp h' with h'' | h''
        · exact Or.inl h''
        · rw [List.mem_singleton.mp h'']
          exact Or.inr ⟨rfl, rfl⟩
      · exact Or.inr h'
    | failValidate =>
      simp only [processFiles, hp] at h
      rcases ih _ (i + 1) img h with h' | h'
      · rw [imgs_unlink] at h'
        exact Or.inl h'
      · exact Or.inr h'
    | failWrite =>
      simp only [processFiles, hp] at h
      rcases ih _ (i + 1) img h with h' | h'
      · rw [imgs_unlink, imgs_applySaveHook] at h'
        exact Or.inl h'
      · exact Or.inr h'

/-- C7 (amended): every Image record surviving an upload request either
already existed or has `uploadStatus = processing`; no record is ever
marked `completed`, because neither the route nor any hook updates the
field after creation. -/
theorem c7_records_stay_processing (st : St) (uid : Nat) (cat : Option Nat)
    (tags : Option (List Nat)) (files : List UpFile) (persist : Nat → SaveOutcome) :
    ∀ img ∈ (ingest st uid cat tags files persist).1.imgs,
      img ∈ st.imgs ∨ img.uploadStatus = .processing := by
  intro img h
  simp only [ingest] at h
  split at h
  · exact Or.inl h
  · split at h
    · exact Or.inl h
    · split at h
      · exact Or.inl h
      · split at h
        · exact Or.inl h
        · split at h
          · rcases processFiles_imgs_spec uid _ (processTags tags) persist files _ 0 img h
              with h' | h'
            · exact Or.inl h'
            · exact Or.inr h'.1
          · rcases processFiles_imgs_spec uid _ (processTags tags) persist files _ 0 img h
              with h' | h'
            · exact Or.inl h'
            · exact Or.inr h'.1

/-- State for the C7 scenario: an empty library. -/
def stC7 : St :=
  { users := [{ id := 1, storageUsed := 0, maxStorage := 1000 }]
    cats := [{ id := 2, name := "pics", imageCount := 0 }]
    imgs := []
    disk := []
    nextId := 40 }

/-- The file uploaded in the C7 scenario. -/
def fC7 : UpFile :=
  { originalname := "y.png", mimetype := "image/png", size := 7, filename := "f7y.png" }

/-- The C7 upload run. -/
def runC7 : St × UpResult := ingest stC7 1 (some 2) none [fC7] (fun _ => .ok)

/-- C7 counterexample: a fully successful ingest (blob written, record
persisted, success response) leaves the surviving record with
`uploadStatus = processing`, not `completed` as the claim requires. -/
theorem c7_cex_completed_never_set :
    runC7.2.isOk = true ∧
    runC7.1.imgs.map (·.uploadStatus) = [UStatus.processing] ∧
    runC7.1.imgs.map (·.uploadStatus) ≠ [UStatus.completed] := by
  decide

/-- The record created by the C7 upload (fresh id 40, schema-default
status). -/
def imgC7 : ImgRec :=
  { id := 40, fileName := "f7y.png", originalName := "y.png"
    mimeType := "image/png", size := 7, category := 2
    tags := [], userId := 1, uploadStatus := .processing }

/-- C7 witness: the amended theorem instantiated at the concrete upload and
its surviving record. -/
theorem c7_records_stay_processing_w :
    imgC7 ∈ stC7.imgs ∨ imgC7.uploadStatus = UStatus.processing :=
  c7_records_stay_processing stC7 1 (some 2) none [fC7] (fun _ => SaveOutcome.ok)
    imgC7 (by decide)

/-! ## C8 / C10 — the category deletion guard. -/

/-- `deleteImage` never modifies the user or category collections
(shared helper; the hook that would decrement the counters is not
triggered by `findByIdAndDelete`). -/
theorem deleteImage_preserves_users_cats (st : St) (uid iid : Nat) (fsOk : Bool) :
    (deleteImage st uid iid fsOk).1.users = st.users ∧
    (deleteImage st uid iid fsOk).1.cats = st.cats := by
  rcases h : st.imgs.find? (fun i => i.id == iid && i.userId == uid) with _ | img <;>
    simp only [deleteImage, h] <;> cases fsOk <;> simp [unlink]

/-- When the lookup succeeds, `deleteImage` removes exactly the records with
the requested id from the image collection. -/
theorem deleteImage_imgs_of_found (st : St) (uid iid : Nat) (fsOk : Bool) (found : ImgRec)
    (hf : st.imgs.find? (fun i => i.id == iid && i.userId == uid) = some found) :
    (deleteImage st uid iid fsOk).1.imgs = st.imgs.filter (fun i => !(i.id == iid)) := by
  simp only [deleteImage, hf]
  cases fsOk <;> rfl

/-- C8: the deletion guard of `DELETE /categories/:id`:
(1) while any Image references the category the deletion is rejected with
the referencing count and the state is untouched;
(2) the decision is computed from a fresh count over the Image collection —
overwriting the cached `imageCount` with any value changes nothing;
(3) when no Image references it and the category exists, it is deleted;
(4) after `deleteImage` removes the last referencing image, the category
becomes deletable. -/
theorem c8_category_delete_guard (st : St) (cid : Nat) :
    ((st.imgs.filter (fun i => i.category == cid)) ≠ [] →
      deleteCategory st cid =
        (st, .hasImages (st.imgs.filter (fun i => i.category == cid)).length)) ∧
    (∀ j : Int, (deleteCategory (catSetCount st cid j) cid).2 = (deleteCategory st cid).2) ∧
    (st.imgs.filter (fun i => i.category == cid) = [] →
      (st.cats.find? (fun c => c.id == cid)).isSome = true →
      (deleteCategory st cid).2 = .ok ∧
      (deleteCategory st cid).1.cats = st.cats.filter (fun c => !(c.id == cid))) ∧
    (∀ (img : ImgRec) (uid iid : Nat) (fsOk : Bool),
      st.imgs.filter (fun i => i.category == cid) = [img] →
      img.userId = uid → img.id = iid →
      (st.cats.find? (fun c => c.id == cid)).isSome = true →
      (deleteCategory (deleteImage st uid iid fsOk).1 cid).2 = .ok) := by
  have hfind : ∀ j : Int, (catSetCount st cid j).cats.find? (fun c => c.id == cid)
      = (st.cats.find? (fun c => c.id == cid)).map
          (fun c => if c.id == cid then { c with imageCount := j } else c) := by
    intro j
    show (st.cats.map _).find? _ = _
    rw [List.find?_map]
    have hpf : ((fun c : CatRec => c.id == cid) ∘ fun c =>
        if c.id == cid then { c with imageCount := j } else c) =
        fun c : CatRec => c.id == cid := by
      funext c
      by_cases h : (c.id == cid) = true
      · rw [Function.comp_apply, if_pos h]
      · rw [Function.comp_apply, if_neg h]
    rw [hpf]
  refine ⟨?_, ?_, ?_, ?_⟩
  · intro hne
    have hl : 0 < (st.imgs.filter (fun i => i.category == cid)).length :=
      List.length_pos.mpr hne
    simp only [deleteCategory]
    rw [if_pos (decide_eq_true hl)]
  · intro j
    simp only [deleteCategory]
    have himgs : (catSetCount st cid j).imgs = st.imgs := rfl
    rw [himgs, hfind j]
    by_cases hn : (decide ((st.imgs.filter (fun i => i.category == cid)).length > 0)) = true
    · rw [if_pos hn, if_pos hn]
    · rw [if_neg hn, if_neg hn]
      cases hf : st.cats.find? (fun c => c.id == cid) with
      | none => rfl
      | some c => rfl
  · intro hfil hsome
    obtain ⟨c, hc⟩ := Option.isSome_iff_exists.mp hsome
    have hguard : (decide ((st.imgs.filter (fun i => i.category == cid)).length > 0)) = false := by
      rw [hfil]
      rfl
    simp only [deleteCategory, hguard, Bool.false_eq_true, ite_false, hc]
    exact ⟨trivial, trivial⟩
  · intro img uid iid fsOk hfil huid hiid hsome
    have himg : img ∈ st.imgs := by
      have : img ∈ st.imgs.filter (fun i => i.category == cid) := by
        rw [hfil]
        exact List.mem_singleton_self img
      exact (List.mem_filter.mp this).1
    have hex : ∃ x, st.imgs.find? (fun i => i.id == iid && i.userId == uid) = some x := by
      cases hf : st.imgs.find? (fun i => i.id == iid && i.userId == uid) with
      | none =>
        exfalso
        have hnone := List.find?_eq_none.mp hf img himg
        apply hnone
        rw [Bool.and_eq_true, beq_iff_eq, beq_iff_eq]
        exact ⟨hiid, huid⟩
      | some x => exact ⟨x, rfl⟩
    obtain ⟨found, hf⟩ := hex
    have himgs := deleteImage_imgs_of_found st uid iid fsOk found hf
    have hcats := (deleteImage_preserves_users_cats st uid iid fsOk).2
    have hrefs : ((deleteImage st uid iid fsOk).1.imgs.filter
        (fun i => i.category == cid)) = [] := by
      rw [himgs]
      rw [List.filter_eq_nil_iff]
      intro a ha hcat
      obtain ⟨ha1, ha2⟩ := List.mem_filter.mp ha
      have : a ∈ st.imgs.filter (fun i => i.category == cid) :=
        List.mem_filter.mpr ⟨ha1, hcat⟩
      rw [hfil, List.mem_singleton] at this
      rw [this] at ha2
      rw [hiid] at ha2
      simp at ha2
    obtain ⟨c, hc⟩ := Option.isSome_iff_exists.mp hsome
    have hc2 : (deleteImage st uid iid fsOk).1.cats.find? (fun c => c.id == cid) = some c := by
      rw [hcats]
      exact hc
    have hguard : (decide (((deleteImage st uid iid fsOk).1.imgs.filter
        (fun i => i.category == cid)).length > 0)) = false := by
      rw [hrefs]
      rfl
    simp only [deleteCategory, hguard, Bool.false_eq_true, ite_false, hc2]

/-- The single image of the C8 scenario (owned by user 1, in category 9). -/
def imgC8 : ImgRec :=
  { id := 5, fileName := "n5", originalName := "o5", mimeType := "image/png"
    size := 10, category := 9, tags := [], userId := 1, uploadStatus := .processing }

/-- C8 scenario: category 9 holds one image; its cached `imageCount` is
deliberately stale (5) to show the guard reads the fresh count. -/
def stC8 : St :=
  { users := [{ id := 1, storageUsed := 10, maxStorage := 1000 }]
    cats := [{ id := 9, name := "c", imageCount := 5 }]
    imgs := [imgC8]
    disk := ["n5"]
    nextId := 6 }

/-- C8 witness: with one referencing image the deletion is rejected with the
fresh count 1 (not the stale cached 5); after deleting that image the
category becomes deletable. -/
theorem c8_category_delete_guard_w :
    (deleteCategory stC8 9).2 = .hasImages 1 ∧
    (deleteCategory (deleteImage stC8 1 5 true).1 9).2 = .ok := by
  have h := c8_category_delete_guard stC8 9
  constructor
  · rw [h.1 (by decide)]
    decide
  · exact h.2.2.2 imgC8 1 5 true (by decide) rfl rfl (by decide)

/-- C10: when every image referencing a category belongs to other users,
the requesting user's dashboard count for that category is 0, yet the
deletion guard — which counts referencing images across all users — still
rejects the deletion with the global count. -/
theorem c10_delete_guard_counts_all_users (st : St) (cid uid : Nat)
    (h1 : ∃ i ∈ st.imgs, (i.category == cid) = true)
    (h2 : ∀ i ∈ st.imgs, (i.category == cid) = true → i.userId ≠ uid) :
    (deleteCategory st cid).2
      = .hasImages ((st.imgs.filter (fun i => i.category == cid)).length) ∧
    0 < (st.imgs.filter (fun i => i.category == cid)).length ∧
    dashCategoryCount st uid cid = 0 := by
  obtain ⟨i0, hi0, hc0⟩ := h1
  have hmem : i0 ∈ st.imgs.filter (fun i => i.category == cid) :=
    List.mem_filter.mpr ⟨hi0, hc0⟩
  have hlen : 0 < (st.imgs.filter (fun i => i.category == cid)).length :=
    List.length_pos.mpr (List.ne_nil_of_mem hmem)
  refine ⟨?_, hlen, ?_⟩
  · simp only [deleteCategory]
    rw [if_pos (decide_eq_true hlen)]
  · unfold dashCategoryCount
    rw [List.length_eq_zero, List.filter_eq_nil_iff]
    intro a ha hpa
    obtain ⟨ha1, ha2⟩ := Bool.and_eq_true_iff.mp hpa
    exact h2 a ha ha1 (beq_iff_eq.mp ha2)

/-- C10 scenario: category 9 contains a single image owned by user 2;
user 1 owns none of it. -/
def stC10 : St :=
  { users := [{ id := 1, storageUsed := 0, maxStorage := 1000 },
              { id := 2, storageUsed := 10, maxStorage := 1000 }]
    cats := [{ id := 9, name := "c", imageCount := 1 }]
    imgs := [{ id := 3, fileName := "n3", originalName := "o3"
               mimeType := "image/png", size := 10, category := 9
               tags := [], userId := 2, uploadStatus := .processing }]
    disk := ["n3"]
    nextId := 4 }

/-- C10 witness: user 1's dashboard shows 0 images in category 9, but its
deletion is still rejected because user 2's image references it. -/
theorem c10_delete_guard_counts_all_users_w :
    (deleteCategory stC10 9).2 = .hasImages 1 ∧
    dashCategoryCount stC10 1 9 = 0 := by
  have h := c10_delete_guard_counts_all_users stC10 9 1 (by decide) (by decide)
  refine ⟨?_, h.2.2⟩
  rw [h.1]
  decide

/-! ## C9 — tag normalization. -/

/-- The head of a `dropWhile` survivor falsifies the predicate. -/
theorem head_dropWhile_false (p : Nat → Bool) (l : List Nat) (a : Nat)
    (h : (l.dropWhile p).head? = some a) : p a = false := by
  have hm := List.head?_dropWhile_not p l
  rw [h] at hm
  exact hm

/-- An element falsifying the predicate survives `dropWhile`. -/
theorem mem_dropWhile_of_not (p : Nat → Bool) (l : List Nat) {b : Nat}
    (hb : b ∈ l) (hpb : p b = false) : b ∈ l.dropWhile p := by
  induction l with
  | nil => cases hb
  | cons x xs ih =>
    by_cases hx : p x = true
    · rw [List.dropWhile_cons, if_pos hx]
      rcases List.mem_cons.mp hb with rfl | h
      · rw [hpb] at hx
        exact absurd hx Bool.false_ne_true
      · exact ih h
    · rw [List.dropWhile_cons, if_neg hx]
      exact hb

/-- The first code of a trimmed string is not whitespace. -/
theorem trimCodes_head_not_ws (x : List Nat) (a : Nat)
    (h : (trimCodes x).head? = some a) : isWsCode a = false := by
  unfold trimCodes at h
  rw [List.head?_reverse] at h
  obtain ⟨s, hs⟩ := List.dropWhile_suffix (l := (x.dropWhile isWsCode).reverse) isWsCode
  have hw : ((x.dropWhile isWsCode).reverse).getLast? = some a := by
    rw [← hs, List.getLast?_append, h]
    rfl
  rw [List.getLast?_reverse] at hw
  exact head_dropWhile_false _ _ _ hw

/-- The last code of a trimmed string is not whitespace. -/
theorem trimCodes_getLast_not_ws (x : List Nat) (a : Nat)
    (h : (trimCodes x).getLast? = some a) : isWsCode a = false := by
  unfold trimCodes at h
  rw [List.getLast?_reverse] at h
  exact head_dropWhile_false _ _ _ h

/-- Trimming only removes codes. -/
theorem mem_of_mem_trimCodes {x : List Nat} {a : Nat} (h : a ∈ trimCodes x) : a ∈ x := by
  unfold trimCodes at h
  rw [List.mem_reverse] at h
  have h2 := (List.dropWhile_sublist isWsCode).subset h
  rw [List.mem_reverse] at h2
  exact (List.dropWhile_sublist isWsCode).subset h2

/-- A string containing a non-whitespace code does not trim to empty. -/
theorem trimCodes_ne_nil_of_mem {x : List Nat} {b : Nat}
    (hb : b ∈ x) (hpb : isWsCode b = false) : trimCodes x ≠ [] := by
  unfold trimCodes
  intro h
  rw [List.reverse_eq_nil_iff, List.dropWhile_eq_nil_iff] at h
  have hb1 : b ∈ x.dropWhile isWsCode := mem_dropWhile_of_not _ _ hb hpb
  have hb2 : b ∈ (x.dropWhile isWsCode).reverse := List.mem_reverse.mpr hb1
  have hc := h b hb2
  rw [hpb] at hc
  exact Bool.false_ne_true hc

/-- ASCII lowercasing preserves whitespace-ness. -/
theorem isWsCode_lowerCode (n : Nat) : isWsCode (lowerCode n) = isWsCode n := by
  unfold lowerCode
  split
  · rename_i h
    have ha : isWsCode (n + 32) = false := by
      rw [Bool.eq_false_iff]
      intro hc
      simp only [isWsCode, Bool.or_eq_true, beq_iff_eq] at hc
      omega
    have hb : isWsCode n = false := by
      rw [Bool.eq_false_iff]
      intro hc
      simp only [isWsCode, Bool.or_eq_true, beq_iff_eq] at hc
      omega
    rw [ha, hb]
  · rfl

/-- The output of `lowerCode` is never an uppercase ASCII letter. -/
theorem lowerCode_not_upper (n : Nat) : ¬(65 ≤ lowerCode n ∧ lowerCode n ≤ 90) := by
  unfold lowerCode
  split
  · rename_i h
    omega
  · rename_i h
    omega

/-- Every tag produced by the full normalization pipeline is non-empty, has
no leading or trailing whitespace, and contains no uppercase ASCII letter. -/
theorem processTags_props (o : Option (List Nat)) :
    ∀ t ∈ processTags o, t ≠ [] ∧
      (∀ a, t.head? = some a → isWsCode a = false) ∧
      (∀ a, t.getLast? = some a → isWsCode a = false) ∧
      (∀ n ∈ t, ¬(65 ≤ n ∧ n ≤ 90)) := by
  intro t ht
  unfold processTags at ht
  obtain ⟨u, hu, rfl⟩ := List.mem_map.mp ht
  cases o with
  | none =>
    simp only [routeTagArray] at hu
    cases hu
  | some s =>
    simp only [routeTagArray] at hu
    by_cases hse : s.isEmpty = true
    · rw [if_pos hse] at hu
      cases hu
    · rw [if_neg hse] at hu
      obtain ⟨hu1, hu2⟩ := List.mem_filter.mp hu
      obtain ⟨v, hv, rfl⟩ := List.mem_map.mp hu1
      have hune : trimCodes v ≠ [] := by
        intro he
        rw [he] at hu2
        exact Bool.false_ne_true hu2
      obtain ⟨a0, ha0⟩ : ∃ a, (trimCodes v).head? = some a := by
        cases hu' : trimCodes v with
        | nil => exact absurd hu' hune
        | cons a rest => exact ⟨a, rfl⟩
      have ha0w : isWsCode a0 = false := trimCodes_head_not_ws v a0 ha0
      have ha0m : a0 ∈ trimCodes v := List.mem_of_mem_head? (by rw [ha0]; rfl)
      have hbm : lowerCode a0 ∈ lowerCodes (trimCodes v) :=
        List.mem_map.mpr ⟨a0, ha0m, rfl⟩
      have hbw : isWsCode (lowerCode a0) = false := by
        rw [isWsCode_lowerCode]
        exact ha0w
      unfold schemaTag
      refine ⟨trimCodes_ne_nil_of_mem hbm hbw, ?_, ?_, ?_⟩
      · intro a ha
        exact trimCodes_head_not_ws _ a ha
      · intro a ha
        exact trimCodes_getLast_not_ws _ a ha
      · intro n hn
        have hn2 := mem_of_mem_trimCodes hn
        obtain ⟨m, _, rfl⟩ := List.mem_map.mp hn2
        exact lowerCode_not_upper m

/-- Image records surviving an ingest either predate it or carry the
normalized tag array and the `processing` status (shared helper). -/
theorem ingest_imgs_spec (st : St) (uid : Nat) (cat : Option Nat)
    (tags : Option (List Nat)) (files : List UpFile) (persist : Nat → SaveOutcome) :
    ∀ img ∈ (ingest st uid cat tags files persist).1.imgs,
      img ∈ st.imgs ∨ (img.uploadStatus = .processing ∧ img.tags = processTags tags) := by
  intro img h
  simp only [ingest] at h
  split at h
  · exact Or.inl h
  · split at h
    · exact Or.inl h
    · split at h
      · exact Or.inl h
      · split at h
        · exact Or.inl h
        · split at h
          · rcases processFiles_imgs_spec uid _ (processTags tags) persist files _ 0 img h
              with h' | h'
            · exact Or.inl h'
            · exact Or.inr h'
          · rcases processFiles_imgs_spec uid _ (processTags tags) persist files _ 0 img h
              with h' | h'
            · exact Or.inl h'
            · exact Or.inr h'

/-- C9: tag processing end to end.  An absent `tags` field stores the empty
list; every record created by an upload stores exactly the normalized tag
array; and every stored tag is non-empty, carries no leading or trailing
whitespace, and contains no uppercase ASCII letter. -/
theorem c9_stored_tags_normalized (st : St) (uid : Nat) (cat : Option Nat)
    (tagsIn : Option (List Nat)) (files : List UpFile) (persist : Nat → SaveOutcome) :
    processTags none = [] ∧
    ∀ img ∈ (ingest st uid cat tagsIn files persist).1.imgs, img ∉ st.imgs →
      img.tags = processTags tagsIn ∧
      ∀ t ∈ img.tags, t ≠ [] ∧
        (∀ a, t.head? = some a → isWsCode a = false) ∧
        (∀ a, t.getLast? = some a → isWsCode a = false) ∧
        (∀ n ∈ t, ¬(65 ≤ n ∧ n ≤ 90)) := by
  refine ⟨rfl, ?_⟩
  intro img hmem hnew
  rcases ingest_imgs_spec st uid cat tagsIn files persist img hmem with h | h
  · exact absurd h hnew
  · refine ⟨h.2, ?_⟩
    intro t ht
    rw [h.2] at ht
    exact processTags_props tagsIn t ht

/-- C9 scenario state. -/
def stC9 : St :=
  { users := [{ id := 1, storageUsed := 0, maxStorage := 1000 }]
    cats := [{ id := 2, name := "pics", imageCount := 0 }]
    imgs := []
    disk := []
    nextId := 77 }

/-- C9 scenario file. -/
def fC9 : UpFile :=
  { originalname := "t.png", mimetype := "image/png", size := 5, filename := "n9.png" }

/-- The C9 request's tags string, " Foo, ,BAR " in character codes. -/
def tagsC9 : List Nat := [32, 70, 111, 111, 44, 32, 44, 66, 65, 82, 32]

/-- The record stored by the C9 upload: tags normalized to "foo" and "bar". -/
def imgC9 : ImgRec :=
  { id := 77, fileName := "n9.png", originalName := "t.png"
    mimeType := "image/png", size := 5, category := 2
    tags := [[102, 111, 111], [98, 97, 114]], userId := 1
    uploadStatus := .processing }

/-- C9 witness: the theorem applied to the concrete upload of
" Foo, ,BAR ", whose stored record carries exactly ["foo", "bar"]. -/
theorem c9_stored_tags_normalized_w :
    imgC9.tags = processTags (some tagsC9) :=
  ((c9_stored_tags_normalized stC9 1 (some 2) (some tagsC9) [fC9]
    (fun _ => SaveOutcome.ok)).2 imgC9 (by decide) (by decide)).1
